import Mathlib

/-!
Shallow embedding of the GeoParquet viewer application logic
(`src/App.vue` of m-mohr/geoparquet-viewer, latest revision).

The external libraries (hyparquet, OpenLayers, the browser) are modelled at
their interface: `parquetRead` delivers the requested row window of the
remote file as a list of rows; the OpenLayers WKB reader turns raw WKB bytes
into a feature, and fails (throws) on input that is not raw WKB bytes —
malformed bytes, `undefined`, or an already-converted feature object;
`VectorSource.getFeatureById` returns the feature with the given id or null,
and calling a method on that null result is a TypeError; `addFeature`
silently skips a feature whose id is already present in the source.
JavaScript exceptions are modelled as `Except` errors / error-message
results, and messages shown via `alert` are collected in a returned list.
-/

namespace GeoParquetViewer

/-- A table cell as held in `this.data`: either the raw value delivered by
`parquetRead` (for geometry columns these are the WKB bytes; `valid` records
whether the bytes parse as WKB), or the map feature that `parseWKB` wrote
back into a geometry cell (`fid` is the id assigned via `feature.setId(i)`,
`geom` its decoded geometry). -/
inductive Cell where
  | raw (geom : Nat) (valid : Bool)
  | feat (fid : Nat) (geom : Nat)
  deriving DecidableEq, Repr

/-- One data row: the list of its cells, indexed by schema column position. -/
abbrev Row := List Cell

/-- The parsed value of the `geo` key in the parquet key/value metadata:
the names of the geometry columns (the keys of its `columns` object) and the
`primary_column` name. -/
structure GeoMeta where
  columns : List String
  primary_column : String
  deriving DecidableEq, Repr

/-- The parquet footer metadata as used by the app: `num_rows`, the schema
children's element names in schema order, and the optional geo metadata. -/
structure Metadata where
  num_rows : Nat
  columnNames : List String
  geo : Option GeoMeta
  deriving DecidableEq, Repr

/-- The remote file plus the behaviour of the HTTP server and of the
external decoding steps for it: whether the HEAD probe succeeds, its
content-length header, whether `parquetMetadataAsync` succeeds, whether the
range-fetch/decode inside `parquetRead` succeeds, the decoded footer
metadata and the decoded rows of the file body. -/
structure RemoteFile where
  headOk : Bool
  contentLength : Option Nat
  metadataOk : Bool
  readOk : Bool
  md : Metadata
  rows : List Row
  deriving DecidableEq, Repr

/-- A per-feature style: `layerDefault` is the absence of a per-feature
style (the layer's default rendering, what a freshly created feature has),
`defaultStyle` is the app's `this.defaultStyle` (`getStyle()`), and
`selectStyle` is `this.selectStyle` (`getStyle('#FF0000')`). -/
inductive FeatStyle where
  | layerDefault
  | defaultStyle
  | selectStyle
  deriving DecidableEq, Repr

/-- A feature held in the map's vector source: its id, geometry, and the
currently applied per-feature style. -/
structure MapFeature where
  fid : Nat
  geom : Nat
  style : FeatStyle
  deriving DecidableEq, Repr

/-- A modal descriptor as pushed by `showModal`: component name and id. -/
structure ModalDesc where
  component : String
  id : String
  deriving DecidableEq, Repr

/-- The mutable state of the `App` component (the fields of `data()`
relevant to the specified behaviour). -/
structure AppState where
  data : List Row
  columns : List String
  offset : Option Nat
  pageSize : Nat
  fileSize : Option Nat
  metadata : Option Metadata
  loading : Bool
  selected : Option Nat
  modals : List ModalDesc
  source : List MapFeature
  deriving DecidableEq, Repr

/-- The state produced by `getDefaults()` together with an empty vector
source: the state right after `reset()` on a fresh component. -/
def initialState : AppState where
  data := []
  columns := []
  offset := some 0
  pageSize := 500
  fileSize := none
  metadata := none
  loading := false
  selected := none
  modals := []
  source := []

/-- The `reset()` method: restore every `getDefaults()` field and clear the
vector source. -/
def reset (_s : AppState) : AppState := initialState

/- Error messages surfaced via `showError`/`alert` or thrown by library
calls. The exact wording is irrelevant to the claims; each constant stands
for one failure site. -/

/-- Message for a failed HEAD probe (non-ok status). -/
def headErrMsg : String := "Error fetching file"

/-- Message thrown when the HEAD response has no content-length header
(verbatim from the source). -/
def noContentLengthMsg : String := "No content-length header returned by server"

/-- Message for a failure inside `parquetMetadataAsync`. -/
def metadataErrMsg : String := "could not read parquet metadata"

/-- Message for a failure inside `parquetRead` (range fetch or decode). -/
def readErrMsg : String := "could not read parquet rows"

/-- Message for `parquetRead` invoked on an async buffer whose byteLength is
still null because discovery failed. -/
def noByteLengthMsg : String := "file byteLength is not available"

/-- Message for the WKB reader failing: its input was malformed WKB bytes or
not raw bytes at all (an already-converted feature, or `undefined`). -/
def wkbErrMsg : String := "could not parse WKB geometry"

/-- Message for a TypeError raised by dereferencing null/undefined (e.g.
`this.geoMetadata.columns` when there is no geo metadata, or indexing a row
with an undefined column index). -/
def typeErrorMsg : String := "TypeError: cannot read properties of null or undefined"

/-- Message for the TypeError raised by `feature.setStyle` when
`getFeatureById` returned null. -/
def nullFeatureMsg : String := "TypeError: cannot read properties of null (reading setStyle)"

/- Column bookkeeping (`allColumns`, `sortedColumns`, `shownColumns`). -/

/-- Pairs each column name with its schema position, in schema order:
the loop body of `allColumns` before object insertion. -/
def indexPairs : Nat → List String → List (String × Nat)
  | _, [] => []
  | n, a :: l => (a, n) :: indexPairs (n + 1) l

/-- JavaScript object assignment `map[k] = v` on an assoc list: overwrite
the value if the key exists (keeping its position), else append. -/
def upsert (m : List (String × Nat)) (k : String) (v : Nat) : List (String × Nat) :=
  if m.any (fun p => p.1 == k) then
    m.map (fun p => if p.1 == k then (k, v) else p)
  else m ++ [(k, v)]

/-- The `allColumns` computed property: a name-to-schema-index map built by
iterating the schema children in order. -/
def allColumns (md : Metadata) : List (String × Nat) :=
  (indexPairs 0 md.columnNames).foldl (fun m p => upsert m p.1 p.2) []

/-- The `sortedColumns` computed property: the entries of `allColumns`
sorted ascending by index (stable, as `Array.prototype.sort`), each mapped
to an `(index, name)` record. -/
def sortedColumns (md : Metadata) : List (Nat × String) :=
  ((allColumns md).insertionSort (fun a b => a.2 ≤ b.2)).map (fun x => (x.2, x.1))

/-- The `shownColumns` computed property: `sortedColumns` without the
columns named in the geo metadata's `columns` object. (In the source the
geo metadata is read from `this.geoMetadata`; it is passed explicitly here,
matching the case where the loaded file carries geo metadata.) -/
def shownColumns (md : Metadata) (geo : GeoMeta) : List (Nat × String) :=
  (sortedColumns md).filter (fun x => !(geo.columns.contains x.2))

/- Discovery and paged loading. -/

/-- The `discover()` method body on the three fields it writes
(`fileSize`, `metadata`, `columns`): HEAD probe, content-length check,
metadata fetch, and seeding of the default column selection. Its
`try/catch` swallows errors after surfacing them, so it always returns
normally; the second component lists the surfaced error messages. -/
def discoverCore (file : RemoteFile) (fileSize : Option Nat) (mdOpt : Option Metadata)
    (columns : List String) : (Option Nat × Option Metadata × List String) × List String :=
  if file.headOk = false then ((fileSize, mdOpt, columns), [headErrMsg])
  else
    match file.contentLength with
    | none => ((fileSize, mdOpt, columns), [noContentLengthMsg])
    | some n =>
      if file.metadataOk = false then ((some n, mdOpt, columns), [metadataErrMsg])
      else
        let cols := if columns = [] then (allColumns file.md).map (·.1) else columns
        ((some n, some file.md, cols), [])

/-- The `discover()` method: apply its body to the component state. -/
def discover (file : RemoteFile) (s : AppState) : AppState × List String :=
  let r := discoverCore file s.fileSize s.metadata s.columns
  ({ s with fileSize := r.1.1, metadata := r.1.2.1, columns := r.1.2.2 }, r.2)

/-- The row window `[rowStart, rowEnd)` delivered by `parquetRead`
(open-ended when `rowEnd` is absent; naturally clamped to the file end). -/
def windowRows (rows : List Row) (rowStart : Nat) (rowEnd : Option Nat) : List Row :=
  match rowEnd with
  | none => rows.drop rowStart
  | some e => (rows.drop rowStart).take (e - rowStart)

/-- The outcome of one `parquetRead` call: the app passes `this.metadata`
and an async buffer whose `byteLength` is `this.fileSize`. Without metadata
hyparquet reads the footer itself, which requires a byteLength and a
successful metadata decode; with metadata it performs the range fetch and
row decode directly. -/
def parquetReadModel (file : RemoteFile) (fileSize : Option Nat) (md : Option Metadata)
    (rowStart : Nat) (rowEnd : Option Nat) : Except String (List Row) :=
  match md with
  | some _ =>
    if file.readOk then .ok (windowRows file.rows rowStart rowEnd) else .error readErrMsg
  | none =>
    match fileSize with
    | none => .error noByteLengthMsg
    | some _ =>
      if file.metadataOk && file.readOk then .ok (windowRows file.rows rowStart rowEnd)
      else .error readErrMsg

/-- An in-flight page load: the synchronous prefix of `loadMore` has run
(computing the requested window from the current offset and page size) and
the asynchronous `parquetRead` outcome is pending delivery. -/
structure Pending where
  rowStart : Nat
  rowEnd : Option Nat
  result : Except String (List Row)
  deriving Repr

/-- The synchronous start of `loadMore()`: the completion guard
(`this.offset === null`), setting the loading flag, running `discover` when
the file size is unknown, and computing the requested window
`[offset, offset + pageSize)` (open-ended when pageSize is 0). Returns the
state after this prefix, the error messages surfaced so far, and the
pending load (none when the guard returned early). -/
def loadMoreStart (file : RemoteFile) (s : AppState) :
    AppState × List String × Option Pending :=
  match s.offset with
  | none => (s, [], none)
  | some o =>
    let s1 := { s with loading := true }
    let d := if s1.fileSize = none then discover file s1 else (s1, [])
    let s2 := d.1
    let rowEnd : Option Nat := if s2.pageSize ≠ 0 then some (o + s2.pageSize) else none
    (s2, d.2, some ⟨o, rowEnd, parquetReadModel file s2.fileSize s2.metadata o rowEnd⟩)

/- Geometry materialization (`parseWKB`, `addToMap`). -/

/-- The OpenLayers WKB reader applied to a cell: raw valid WKB bytes decode
to a geometry; malformed bytes or a non-bytes value (an already-converted
feature) fail. -/
def readFeatureWKB : Cell → Option Nat
  | .raw g true => some g
  | .raw _ false => none
  | .feat _ _ => none

/-- One iteration of the inner `parseWKB` loop on row `i`: decode the cell
at the geometry column's index, assign the feature id `i`, and write the
feature back into the cell. A missing cell models `row[undefined]`. -/
def convertRow (i : Nat) (idx : Nat) (r : Row) : Except String Row :=
  match r.get? idx with
  | none => .error typeErrorMsg
  | some c =>
    match readFeatureWKB c with
    | none => .error wkbErrMsg
    | some g => .ok (r.set idx (.feat i g))

/-- The inner `parseWKB` loop over all currently loaded rows, starting at
row index `i`. An exception stops the loop, leaving the remaining rows
untouched; the rows already converted keep their new cells. -/
def convertRows (idx : Nat) : Nat → List Row → List Row × Option String
  | _, [] => ([], none)
  | i, r :: rest =>
    match convertRow i idx r with
    | .error e => (r :: rest, some e)
    | .ok r' =>
      let p := convertRows idx (i + 1) rest
      (r' :: p.1, p.2)

/-- One geometry column's pass of `parseWKB`: look up the column's schema
index (`this.allColumns[column]`) and convert every row. An unknown column
gives an undefined index, so the first row access throws; with no rows the
loop body never runs. -/
def convertColumn (md : Metadata) (name : String) (data : List Row) :
    List Row × Option String :=
  match (allColumns md).lookup name with
  | some idx => convertRows idx 0 data
  | none => if data.isEmpty then (data, none) else (data, some typeErrorMsg)

/-- The outer `parseWKB` loop over the geo metadata's columns; an exception
in one column's pass aborts the remaining columns. -/
def convertColumns (md : Metadata) : List String → List Row → List Row × Option String
  | [], data => (data, none)
  | c :: cs, data =>
    let p := convertColumn md c data
    match p.2 with
    | some e => (p.1, some e)
    | none => convertColumns md cs p.1

/-- The effect of `parseWKB()` on the loaded dataset: dereferencing
`this.geoMetadata.columns` throws when there is no metadata or no geo key;
otherwise every geometry column is converted over the whole dataset. -/
def parseWKBcore (mdOpt : Option Metadata) (data : List Row) : List Row × Option String :=
  match mdOpt with
  | none => (data, some typeErrorMsg)
  | some md =>
    match md.geo with
    | none => (data, some typeErrorMsg)
    | some geo => convertColumns md geo.columns data

/-- The `parseWKB()` method: convert the loaded dataset's geometry columns
in place. Returns the updated state and the thrown error, if any. -/
def parseWKB (s : AppState) : AppState × Option String :=
  let p := parseWKBcore s.metadata s.data
  ({ s with data := p.1 }, p.2)

/-- `VectorSource.addFeature`: a feature whose id is already present in the
source is silently not added. -/
def addFeature (source : List MapFeature) (f : MapFeature) : List MapFeature :=
  if source.any (fun g => g.fid == f.fid) then source else source ++ [f]

/-- The `addToMap` loop body over the loaded rows: fetch the primary
geometry column's cell via `getValue` and add it to the vector source. A
missing column index or a cell that is not a feature throws, stopping the
loop with the features added so far kept. -/
def addRows (md : Metadata) (geo : GeoMeta) (source : List MapFeature) :
    List Row → List MapFeature × Option String
  | [] => (source, none)
  | r :: rest =>
    match (allColumns md).lookup geo.primary_column with
    | none => (source, some typeErrorMsg)
    | some idx =>
      match r.get? idx with
      | some (.feat fid g) =>
        addRows md geo (addFeature source ⟨fid, g, .layerDefault⟩) rest
      | _ => (source, some typeErrorMsg)

/-- The effect of `addToMap()` on the vector source: dereferencing
`this.geoMetadata` throws without geo metadata; otherwise every loaded
row's primary geometry feature is added. -/
def addToMapCore (mdOpt : Option Metadata) (source : List MapFeature) (data : List Row) :
    List MapFeature × Option String :=
  match mdOpt with
  | none => (source, some typeErrorMsg)
  | some md =>
    match md.geo with
    | none => (source, some typeErrorMsg)
    | some geo => addRows md geo source data

/-- The `addToMap()` method: add every loaded row's primary geometry
feature to the map's vector source. -/
def addToMap (s : AppState) : AppState × Option String :=
  let p := addToMapCore s.metadata s.source s.data
  ({ s with source := p.1 }, p.2)

/-- The tail of `loadMore()` after `onComplete` has run: `await
this.parseWKB()` (which rewrites the dataset's geometry cells, possibly
partially, before throwing) and `await this.addToMap()` (which appends to
the vector source, possibly partially, before throwing); an exception is
caught at the `loadMore` boundary and surfaced, and `finally` clears the
loading flag. Each branch spells out exactly the fields written. -/
def loadMoreAfterRows (s : AppState) : AppState × List String :=
  match (parseWKBcore s.metadata s.data).2 with
  | some e =>
    ({ s with data := (parseWKBcore s.metadata s.data).1, loading := false }, [e])
  | none =>
    match (addToMapCore s.metadata s.source (parseWKBcore s.metadata s.data).1).2 with
    | some e =>
      ({ s with data := (parseWKBcore s.metadata s.data).1,
                source := (addToMapCore s.metadata s.source
                  (parseWKBcore s.metadata s.data).1).1,
                loading := false }, [e])
    | none =>
      ({ s with data := (parseWKBcore s.metadata s.data).1,
                source := (addToMapCore s.metadata s.source
                  (parseWKBcore s.metadata s.data).1).1,
                loading := false }, [])

/-- The continuation of `loadMore()` once the pending `parquetRead`
settles: a rejected read is caught (`finally` clears the loading flag);
otherwise `onComplete` clears the loading flag, appends the delivered rows,
and updates the offset (null when the page size is 0 or the page was short,
else advanced by the number of delivered rows — JavaScript coerces a null
offset to 0 in `this.offset += data.length`). Then `parseWKB` and
`addToMap` run via `loadMoreAfterRows`. -/
def loadMoreFinish (s : AppState) (p : Pending) : AppState × List String :=
  match p.result with
  | .error e => ({ s with loading := false }, [e])
  | .ok rows =>
    loadMoreAfterRows
      { s with loading := false, data := s.data ++ rows,
               offset :=
                 if s.pageSize = 0 ∨ rows.length < s.pageSize then none
                 else some (s.offset.getD 0 + rows.length) }

/-- The `loadMore()` method as one sequential operation: the synchronous
start followed immediately by the completion of its pending load. -/
def loadMore (file : RemoteFile) (s : AppState) : AppState × List String :=
  match (loadMoreStart file s).2.2 with
  | none => ((loadMoreStart file s).1, (loadMoreStart file s).2.1)
  | some p =>
    ((loadMoreFinish (loadMoreStart file s).1 p).1,
      (loadMoreStart file s).2.1 ++ (loadMoreFinish (loadMoreStart file s).1 p).2)

/-- The `loadAll()` method: set the page size to 0, then `loadMore`. -/
def loadAll (file : RemoteFile) (s : AppState) : AppState × List String :=
  loadMore file { s with pageSize := 0 }

/-- The `load()` method: reset, then one `loadMore`. -/
def load (file : RemoteFile) (s : AppState) : AppState × List String :=
  loadMore file (reset s)

/-- Repeated `loadMore` invocations until completion is signalled
(`offset = none`) or the fuel runs out. -/
def loadMoreRepeat (file : RemoteFile) : Nat → AppState → AppState
  | 0, s => s
  | n + 1, s =>
    if s.offset = none then s else loadMoreRepeat file n (loadMore file s).1

/- Selection synchronization. -/

/-- `VectorSource.getFeatureById`, with a null (`none`) id matching no
feature. -/
def getFeatureById (source : List MapFeature) (id : Option Nat) : Option MapFeature :=
  match id with
  | none => none
  | some i => source.find? (fun f => f.fid == i)

/-- The effect of `feature.setStyle(style)` on the source: the feature
object with id `k` is mutated in place, every other feature is untouched. -/
def restyle (k : Nat) (st : FeatStyle) (g : MapFeature) : MapFeature :=
  if g.fid == k then { g with style := st } else g

/-- The `setFeatureStyle` method: look the feature up by id and set its
style. When no feature has that id, `getFeatureById` returns null and the
`setStyle` call on it raises a TypeError. -/
def setFeatureStyle (s : AppState) (id : Option Nat) (style : FeatStyle) :
    Except String (AppState × MapFeature) :=
  match getFeatureById s.source id with
  | none => .error nullFeatureMsg
  | some f =>
    .ok ({ s with source := s.source.map (restyle f.fid style) },
         { f with style := style })

/-- The `unselectFeature` method: nothing to do when nothing is selected,
else restore the previously selected feature's style to the default. -/
def unselectFeature (s : AppState) : Except String AppState :=
  match s.selected with
  | none => .ok s
  | some _ => (setFeatureStyle s s.selected .defaultStyle).map (·.1)

/-- The `selectFeature` method: apply the select style to the currently
selected feature (and fit the view to its extent, which has no modelled
state effect). -/
def selectFeature (s : AppState) : Except String AppState :=
  (setFeatureStyle s s.selected .selectStyle).map (·.1)

/-- The `select(i)` method: clear the previous selection's style, then
record `i` as selected. -/
def select (s : AppState) (i : Nat) : Except String AppState :=
  (unselectFeature s).map fun s1 => { s1 with selected := some i }

/-- The `selectOnMap(i)` method: `select(i)` then highlight the feature. -/
def selectOnMap (s : AppState) (i : Nat) : Except String AppState :=
  (select s i).bind selectFeature

/- Modal stack. -/

/-- The clamped start position of `Array.prototype.splice(start, ...)`:
negative values count from the end. -/
def spliceStart (len : Nat) (idx : Int) : Nat :=
  if idx < 0 then (max ((len : Int) + idx) 0).toNat else min idx.toNat len

/-- `Array.prototype.splice(idx, 1)`: remove one element at the clamped
start position. -/
def spliceRemoveOne {α : Type} (xs : List α) (idx : Int) : List α :=
  let k := spliceStart xs.length idx
  xs.take k ++ xs.drop (k + 1)

/-- The `showModal` method restricted to its list effect: push a descriptor
with the given component name and id. -/
def showModal (s : AppState) (component id : String) : AppState :=
  { s with modals := s.modals ++ [⟨component, id⟩] }

/-- The `hideModal` method: `findIndex` yields the matching entry's index,
or -1 when absent. The guard `typeof index !== 'undefined'` is always true
(the index is a number), so `splice(index, 1)` always runs — with index -1
it removes the last entry. -/
def hideModal (s : AppState) (id : String) : AppState :=
  let idx : Int :=
    match s.modals.findIdx? (fun m => m.id == id) with
    | some i => (i : Int)
    | none => -1
  { s with modals := spliceRemoveOne s.modals idx }

/- Invariant predicates used by the stability claims. -/

/-- A cell is consistent with row position `i`: a materialized feature's id
equals `i`; raw cells are unconstrained. -/
def cellIdOk (i : Nat) : Cell → Bool
  | .feat fid _ => fid == i
  | .raw _ _ => true

/-- Every materialized feature in the row carries the row position `i`. -/
def rowIdOk (i : Nat) (r : Row) : Bool :=
  r.all (cellIdOk i)

/-- Every materialized feature in the rows carries its row position,
counting positions from `n`. -/
def rowsIdOkFrom : Nat → List Row → Bool
  | _, [] => true
  | n, r :: rest => rowIdOk n r && rowsIdOkFrom (n + 1) rest

/-- The row-position-to-feature-id invariant over the loaded dataset: every
materialized feature's id equals its row's position. -/
def FeatureIdsOk (data : List Row) : Prop :=
  rowsIdOkFrom 0 data = true

/-- A cell is still raw (not yet materialized). -/
def cellRaw : Cell → Bool
  | .raw _ _ => true
  | .feat _ _ => false

/-- All cells of all rows are raw, as delivered by `parquetRead`. -/
def AllRawRows (rows : List Row) : Prop :=
  rows.all (fun r => r.all cellRaw) = true

/- Concrete fixtures used by witnesses and counterexamples. -/

/-- Footer metadata of a 250-row, two-column file without geo metadata. -/
def mdPlain : Metadata :=
  { num_rows := 250, columnNames := ["a", "b"], geo := none }

/-- A well-behaved 250-row remote file. -/
def file250 : RemoteFile :=
  { headOk := true, contentLength := some 9999, metadataOk := true, readOk := true,
    md := mdPlain,
    rows := (List.range 250).map fun k => [Cell.raw k true, Cell.raw (k + 1000) true] }

/-- The fresh state with page size 100. -/
def s100 : AppState :=
  { initialState with pageSize := 100 }

/-- Footer metadata of a two-column GeoParquet file whose first column
`geometry` is the (primary) geometry column. -/
def mdGeo : Metadata :=
  { num_rows := 2, columnNames := ["geometry", "name"],
    geo := some { columns := ["geometry"], primary_column := "geometry" } }

/-- A well-behaved 2-row GeoParquet remote file with valid WKB geometry. -/
def file2 : RemoteFile :=
  { headOk := true, contentLength := some 100, metadataOk := true, readOk := true,
    md := mdGeo,
    rows := [[Cell.raw 10 true, Cell.raw 0 true], [Cell.raw 20 true, Cell.raw 1 true]] }

/-- The fresh state with page size 1. -/
def s0pg1 : AppState :=
  { initialState with pageSize := 1 }

/-- A 1-row GeoParquet remote file whose geometry bytes are malformed WKB. -/
def fileBadWkb : RemoteFile :=
  { headOk := true, contentLength := some 50, metadataOk := true, readOk := true,
    md := { num_rows := 1, columnNames := ["geometry"],
            geo := some { columns := ["geometry"], primary_column := "geometry" } },
    rows := [[Cell.raw 5 false]] }

/-- A remote file whose HEAD response omits the content-length header. -/
def fileNoCL : RemoteFile :=
  { headOk := true, contentLength := none, metadataOk := true, readOk := true,
    md := mdPlain, rows := [[Cell.raw 1 true, Cell.raw 2 true]] }

/-- A state whose vector source holds two unstyled features with ids 0, 1. -/
def sSel : AppState :=
  { initialState with
      source := [⟨0, 5, .layerDefault⟩, ⟨1, 7, .layerDefault⟩] }

/-- The pending load produced by triggering `loadMore` on `s100` over
`file250`: the window `[0, 100)` with its successfully decoded rows. -/
def c3pend : Pending :=
  ⟨0, some 100, Except.ok (windowRows file250.rows 0 (some 100))⟩

/-- The state after two overlapping `loadMore` triggers have both run their
synchronous prefix (both loads in flight). -/
def c3s2 : AppState :=
  (loadMoreStart file250 (loadMoreStart file250 s100).1).1

/-- The state after the second trigger's load completes first. -/
def c3mid : AppState :=
  (loadMoreFinish c3s2 c3pend).1

/-- The state after the first trigger's identical pending load then also
completes. -/
def c3fin : AppState :=
  (loadMoreFinish c3mid c3pend).1

/- Preservation lemmas: which fields each operation leaves untouched. -/

theorem discover_data (file : RemoteFile) (s : AppState) :
    (discover file s).1.data = s.data := rfl

theorem discover_offset (file : RemoteFile) (s : AppState) :
    (discover file s).1.offset = s.offset := rfl

theorem discover_pageSize (file : RemoteFile) (s : AppState) :
    (discover file s).1.pageSize = s.pageSize := rfl

theorem loadMoreStart_data (file : RemoteFile) (s : AppState) :
    (loadMoreStart file s).1.data = s.data := by
  unfold loadMoreStart
  rcases h : s.offset with _ | o
  · rfl
  · dsimp only
    split <;> rfl

theorem loadMoreStart_offset (file : RemoteFile) (s : AppState) :
    (loadMoreStart file s).1.offset = s.offset := by
  unfold loadMoreStart
  rcases h : s.offset with _ | o
  · exact h
  · dsimp only
    split <;> simp [discover_offset, h]

theorem loadMoreStart_pageSize (file : RemoteFile) (s : AppState) :
    (loadMoreStart file s).1.pageSize = s.pageSize := by
  unfold loadMoreStart
  rcases h : s.offset with _ | o
  · rfl
  · dsimp only
    split <;> rfl

theorem loadMoreAfterRows_offset (s : AppState) :
    (loadMoreAfterRows s).1.offset = s.offset := by
  unfold loadMoreAfterRows
  rcases h1 : (parseWKBcore s.metadata s.data).2 with _ | e
  · rcases h2 : (addToMapCore s.metadata s.source (parseWKBcore s.metadata s.data).1).2
      with _ | e <;> simp [h1, h2]
  · simp [h1]

theorem loadMoreAfterRows_pageSize (s : AppState) :
    (loadMoreAfterRows s).1.pageSize = s.pageSize := by
  unfold loadMoreAfterRows
  rcases h1 : (parseWKBcore s.metadata s.data).2 with _ | e
  · rcases h2 : (addToMapCore s.metadata s.source (parseWKBcore s.metadata s.data).1).2
      with _ | e <;> simp [h1, h2]
  · simp [h1]

theorem loadMoreAfterRows_fileSize (s : AppState) :
    (loadMoreAfterRows s).1.fileSize = s.fileSize := by
  unfold loadMoreAfterRows
  rcases h1 : (parseWKBcore s.metadata s.data).2 with _ | e
  · rcases h2 : (addToMapCore s.metadata s.source (parseWKBcore s.metadata s.data).1).2
      with _ | e <;> simp [h1, h2]
  · simp [h1]

theorem loadMoreAfterRows_metadata (s : AppState) :
    (loadMoreAfterRows s).1.metadata = s.metadata := by
  unfold loadMoreAfterRows
  rcases h1 : (parseWKBcore s.metadata s.data).2 with _ | e
  · rcases h2 : (addToMapCore s.metadata s.source (parseWKBcore s.metadata s.data).1).2
      with _ | e <;> simp [h1, h2]
  · simp [h1]

/-- A `loadMore` on a completed pagination state (`offset === null`) is a
no-op that surfaces no errors. -/
theorem loadMore_of_complete (file : RemoteFile) (s : AppState) (h : s.offset = none) :
    loadMore file s = (s, []) := by
  unfold loadMore loadMoreStart
  rw [h]

/-- A `loadMore` started on an uncompleted state always computes its
requested window from the current offset. -/
theorem loadMoreStart_rowStart (file : RemoteFile) (s : AppState) (o : Nat)
    (h : s.offset = some o) :
    ((loadMoreStart file s).2.2).map (fun p => p.rowStart) = some o := by
  unfold loadMoreStart
  rw [h]
  rfl

/-- With a nonzero page size, the requested window is
`[offset, offset + pageSize)`. -/
theorem loadMoreStart_window (file : RemoteFile) (s : AppState) (o : Nat)
    (h : s.offset = some o) (hps : s.pageSize ≠ 0) :
    ((loadMoreStart file s).2.2).map (fun p => (p.rowStart, p.rowEnd)) =
      some (o, some (o + s.pageSize)) := by
  unfold loadMoreStart
  rw [h]
  dsimp only
  split <;> simp [discover_pageSize, hps]

/-- A rejected `parquetRead` is caught by the `loadMore` catch block: the
only state change of the completion is clearing the loading flag. -/
theorem loadMoreFinish_error (s : AppState) (p : Pending) (e : String)
    (h : p.result = .error e) :
    loadMoreFinish s p = ({ s with loading := false }, [e]) := by
  unfold loadMoreFinish
  rw [h]

/-- Restyling never changes a feature's id. -/
theorem restyle_fid (k : Nat) (st : FeatStyle) (g : MapFeature) :
    (restyle k st g).fid = g.fid := by
  unfold restyle
  split <;> rfl

/-- Restyling leaves the id column of the source unchanged. -/
theorem map_fid_restyle (l : List MapFeature) (k : Nat) (st : FeatStyle) :
    (l.map (restyle k st)).map (·.fid) = l.map (·.fid) := by
  rw [List.map_map]
  exact List.map_congr_left (fun g _ => restyle_fid k st g)

/-- If a feature id is absent from a source, restyling keeps it absent. -/
theorem find?_restyle_none (l : List MapFeature) (i k : Nat) (st : FeatStyle)
    (h : l.find? (fun f => f.fid == i) = none) :
    (l.map (restyle k st)).find? (fun f => f.fid == i) = none := by
  rw [List.find?_eq_none] at h ⊢
  intro x hx
  rcases List.mem_map.mp hx with ⟨g, hg, rfl⟩
  have hgi := h g hg
  rw [restyle_fid]
  exact hgi

/-- C5: the claim is right and the code has a slip: `findIndex` yields -1
for a missing id (never `undefined`, which the guard tests for), and
`splice(-1, 1)` removes the last entry. Hiding the id "b" on a modal list
holding only the id "a" empties the list instead of leaving it unchanged. -/
theorem C5_hideModal_missing_id_removes_last :
    ({ initialState with modals := [⟨"AboutModal", "a"⟩] } : AppState).modals =
      [⟨"AboutModal", "a"⟩] ∧
    (hideModal { initialState with modals := [⟨"AboutModal", "a"⟩] } "b").modals = [] :=
  ⟨rfl, rfl⟩

/-- C8 (counterexample): a decode error during geometry parsing does not
leave the pagination state unchanged. On a 1-row file with malformed WKB,
`loadMore` from the fresh state surfaces the decode error, yet the row was
appended and the offset moved from `some 0` to `none` (completion), so a
retry via `loadMore` is a no-op instead of being possible. -/
theorem C8_counterexample :
    initialState.offset = some 0 ∧
    (loadMore fileBadWkb initialState).2 = [wkbErrMsg] ∧
    (loadMore fileBadWkb initialState).1.offset = none ∧
    (loadMore fileBadWkb initialState).1.data = [[Cell.raw 5 false]] ∧
    initialState.data = [] ∧
    loadMore fileBadWkb (loadMore fileBadWkb initialState).1 =
      ((loadMore fileBadWkb initialState).1, []) :=
  ⟨rfl, rfl, rfl, rfl, rfl, rfl⟩

/-- C8 (amended): when the failure happens during discovery or during the
`parquetRead` row decode itself (the pending load settles with an error),
the dataset, the offset and the page size are exactly as before the failing
invocation and the error is surfaced, so a retry is possible. (An error
thrown later, in geometry materialization, occurs after the page was
appended and the offset advanced; previously loaded pages remain intact in
every case.) -/
theorem C8_read_error_preserves_state (file : RemoteFile) (s : AppState) (p : Pending)
    (e : String) (hp : (loadMoreStart file s).2.2 = some p) (he : p.result = .error e) :
    (loadMore file s).1.data = s.data ∧
    (loadMore file s).1.offset = s.offset ∧
    (loadMore file s).1.pageSize = s.pageSize ∧
    (loadMore file s).2 = (loadMoreStart file s).2.1 ++ [e] := by
  have hL : loadMore file s =
      ((loadMoreFinish (loadMoreStart file s).1 p).1,
        (loadMoreStart file s).2.1 ++ (loadMoreFinish (loadMoreStart file s).1 p).2) := by
    unfold loadMore
    rw [hp]
  rw [hL, loadMoreFinish_error _ p e he]
  refine ⟨?_, ?_, ?_, rfl⟩
  · exact loadMoreStart_data file s
  · exact loadMoreStart_offset file s
  · exact loadMoreStart_pageSize file s

/-- Witness for C8: the content-length-less file rejects the read with the
missing-byteLength error, and the fresh state survives unchanged. -/
theorem C8_read_error_preserves_state_witness :
    (loadMoreStart fileNoCL initialState).2.2 =
      some ⟨0, some 500, Except.error noByteLengthMsg⟩ ∧
    ((loadMore fileNoCL initialState).1.data = initialState.data ∧
      (loadMore fileNoCL initialState).1.offset = initialState.offset ∧
      (loadMore fileNoCL initialState).1.pageSize = initialState.pageSize ∧
      (loadMore fileNoCL initialState).2 =
        (loadMoreStart fileNoCL initialState).2.1 ++ [noByteLengthMsg]) :=
  ⟨rfl, C8_read_error_preserves_state fileNoCL initialState
    ⟨0, some 500, Except.error noByteLengthMsg⟩ noByteLengthMsg rfl rfl⟩

/-- C9: when the HEAD probe omits the content-length header, `discover`
throws before the file size is set and surfaces the error; the subsequent
`parquetRead` on the sizeless buffer then also fails, so the invocation
surfaces errors, adds zero rows to the dataset and leaves the offset
unchanged. -/
theorem C9_missing_content_length (file : RemoteFile) (s : AppState) (o : Nat)
    (hoff : s.offset = some o) (hfs : s.fileSize = none) (hmd : s.metadata = none)
    (hhead : file.headOk = true) (hcl : file.contentLength = none) :
    (loadMore file s).1.data = s.data ∧
    (loadMore file s).2 = [noContentLengthMsg, noByteLengthMsg] ∧
    (loadMore file s).1.offset = s.offset := by
  have hstart : loadMoreStart file s =
      ({ s with loading := true }, [noContentLengthMsg],
        some ⟨o, if s.pageSize ≠ 0 then some (o + s.pageSize) else none,
              Except.error noByteLengthMsg⟩) := by
    unfold loadMoreStart discover discoverCore parquetReadModel
    rw [hoff]
    simp [hfs, hmd, hhead, hcl]
  unfold loadMore
  rw [hstart]
  dsimp only
  rw [loadMoreFinish_error _ _ _ rfl]
  exact ⟨rfl, rfl, rfl⟩

/-- Witness for C9 on a concrete file whose HEAD response has no
content-length. -/
theorem C9_missing_content_length_witness :
    initialState.offset = some 0 ∧ initialState.fileSize = none ∧
    initialState.metadata = none ∧ fileNoCL.headOk = true ∧
    fileNoCL.contentLength = none ∧
    ((loadMore fileNoCL initialState).1.data = initialState.data ∧
      (loadMore fileNoCL initialState).2 = [noContentLengthMsg, noByteLengthMsg] ∧
      (loadMore fileNoCL initialState).1.offset = initialState.offset) :=
  ⟨rfl, rfl, rfl, rfl, rfl,
    C9_missing_content_length fileNoCL initialState 0 rfl rfl rfl rfl rfl⟩

/-- C3 (counterexample): with a load in flight (loading flag set, offset
not yet advanced), a second `loadMore` trigger is granted a pending load of
the very same window `[0, 100)`; completing the second trigger first pushes
its 100 rows into the dataset before the first trigger has completed, and
completing the first afterwards duplicates the window and advances the
offset to 200. -/
theorem C3_counterexample :
    (loadMoreStart file250 s100).2.2 = some c3pend ∧
    (loadMoreStart file250 s100).1.loading = true ∧
    (loadMoreStart file250 (loadMoreStart file250 s100).1).2.2 = some c3pend ∧
    c3mid.data = windowRows file250.rows 0 (some 100) ∧
    c3mid.data ≠ [] ∧
    c3fin.data =
      windowRows file250.rows 0 (some 100) ++ windowRows file250.rows 0 (some 100) ∧
    c3fin.offset = some 200 :=
  ⟨rfl, rfl, rfl, rfl, by decide, rfl, rfl⟩

/-- C3 (amended): `loadMore` is guarded only by the completion flag
(`offset === null`); the loading flag is never checked. A second trigger
while a load is in flight is therefore neither rejected nor queued: it
starts its own pending load, reading the same, not-yet-advanced offset. -/
theorem C3_inflight_second_trigger_not_rejected (file : RemoteFile) (s : AppState)
    (o : Nat) (_hload : s.loading = true) (hoff : s.offset = some o) :
    ∃ p, (loadMoreStart file s).2.2 = some p ∧ p.rowStart = o := by
  have h := loadMoreStart_rowStart file s o hoff
  rcases hp : (loadMoreStart file s).2.2 with _ | p
  · rw [hp] at h
    exact absurd h (by simp)
  · rw [hp] at h
    simp only [Option.map_some'] at h
    exact ⟨p, rfl, by injection h⟩

/-- Witness for C3 (amended): the state right after a first trigger of
`loadMore` on the 250-row file is in flight, and a second trigger on it is
granted a pending load at the same offset 0. -/
theorem C3_inflight_second_trigger_not_rejected_witness :
    (loadMoreStart file250 s100).1.loading = true ∧
    (loadMoreStart file250 s100).1.offset = some 0 ∧
    ∃ p, (loadMoreStart file250 (loadMoreStart file250 s100).1).2.2 = some p ∧
      p.rowStart = 0 :=
  ⟨rfl, rfl,
    C3_inflight_second_trigger_not_rejected file250 (loadMoreStart file250 s100).1 0
      rfl rfl⟩

/-- C6 (counterexample): selecting row 0 on the fresh state, whose vector
source holds no feature at all, raises the TypeError of calling `setStyle`
on the null result of `getFeatureById` — it is not a no-op. -/
theorem C6_counterexample :
    getFeatureById initialState.source (some 0) = none ∧
    selectOnMap initialState 0 = Except.error nullFeatureMsg :=
  ⟨rfl, rfl⟩

/-- On a missing feature id, `setFeatureStyle` raises the null-feature
TypeError. -/
theorem setFeatureStyle_missing (s : AppState) (jd : Nat) (st : FeatStyle)
    (hj : s.source.find? (fun g => g.fid == jd) = none) :
    setFeatureStyle s (some jd) st = .error nullFeatureMsg := by
  unfold setFeatureStyle getFeatureById
  dsimp only
  rw [hj]

/-- On a present feature id, `setFeatureStyle` restyles the found feature
and returns it. -/
theorem setFeatureStyle_found (s : AppState) (jd : Nat) (st : FeatStyle) (f : MapFeature)
    (hj : s.source.find? (fun g => g.fid == jd) = some f) :
    setFeatureStyle s (some jd) st =
      .ok ({ s with source := s.source.map (restyle f.fid st) },
           { f with style := st }) := by
  unfold setFeatureStyle getFeatureById
  dsimp only
  rw [hj]

/-- Variant keyed by the looked-up id: the feature found for id `jd` has
id `jd`, so the restyling is the restyling of `jd`. -/
theorem setFeatureStyle_found_id (s : AppState) (jd : Nat) (st : FeatStyle)
    (f : MapFeature) (hj : s.source.find? (fun g => g.fid == jd) = some f) :
    setFeatureStyle s (some jd) st =
      .ok ({ s with source := s.source.map (restyle jd st) },
           ⟨jd, f.geom, st⟩) := by
  have hfid : f.fid = jd := by simpa using List.find?_some hj
  rw [setFeatureStyle_found s jd st f hj, hfid]

/-- C6 (amended): selecting a row index that has no corresponding feature
in the map's feature source raises the null-feature TypeError (whatever the
previous selection was) instead of completing as a no-op. -/
theorem C6_missing_feature_errors (s : AppState) (i : Nat)
    (h : getFeatureById s.source (some i) = none) :
    selectOnMap s i = Except.error nullFeatureMsg := by
  have hfind : s.source.find? (fun f => f.fid == i) = none := h
  unfold selectOnMap select unselectFeature
  rcases hsel : s.selected with _ | j
  · show selectFeature { s with selected := some i } = Except.error nullFeatureMsg
    unfold selectFeature
    rw [setFeatureStyle_missing { s with selected := some i } i .selectStyle hfind]
    rfl
  · rcases hj : s.source.find? (fun g => g.fid == j) with _ | f
    · rw [setFeatureStyle_missing s j .defaultStyle hj]
      rfl
    · rw [setFeatureStyle_found s j .defaultStyle f hj]
      show selectFeature
          { s with
            selected := some i,
            source := s.source.map (restyle f.fid FeatStyle.defaultStyle) } =
        Except.error nullFeatureMsg
      unfold selectFeature
      rw [setFeatureStyle_missing _ i .selectStyle
        (find?_restyle_none s.source i f.fid .defaultStyle hfind)]
      rfl

/-- Characterization of `loadMoreFinish` on a successful read: the offset
moves by the completion rule of `onComplete`. -/
theorem loadMoreFinish_ok_offset (s : AppState) (p : Pending) (rows : List Row)
    (h : p.result = .ok rows) :
    (loadMoreFinish s p).1.offset =
      if s.pageSize = 0 ∨ rows.length < s.pageSize then none
      else some (s.offset.getD 0 + rows.length) := by
  unfold loadMoreFinish
  rw [h]
  exact loadMoreAfterRows_offset _

theorem loadMoreFinish_ok_pageSize (s : AppState) (p : Pending) (rows : List Row)
    (h : p.result = .ok rows) :
    (loadMoreFinish s p).1.pageSize = s.pageSize := by
  unfold loadMoreFinish
  rw [h]
  exact loadMoreAfterRows_pageSize _

theorem loadMoreFinish_ok_fileSize (s : AppState) (p : Pending) (rows : List Row)
    (h : p.result = .ok rows) :
    (loadMoreFinish s p).1.fileSize = s.fileSize := by
  unfold loadMoreFinish
  rw [h]
  exact loadMoreAfterRows_fileSize _

theorem loadMoreFinish_ok_metadata (s : AppState) (p : Pending) (rows : List Row)
    (h : p.result = .ok rows) :
    (loadMoreFinish s p).1.metadata = s.metadata := by
  unfold loadMoreFinish
  rw [h]
  exact loadMoreAfterRows_metadata _

/-- Characterization of the synchronous `loadMore` prefix on a fresh state
(no file size yet) whose discovery succeeds: discovery fills size, metadata
and the default column selection, and the pending load requests
`[offset, offset + pageSize)` of the decoded rows. -/
theorem loadMoreStart_fresh (file : RemoteFile) (s : AppState) (o n : Nat)
    (hoff : s.offset = some o) (hfs : s.fileSize = none)
    (hcl : file.contentLength = some n) (hhead : file.headOk = true)
    (hmok : file.metadataOk = true) (hread : file.readOk = true) :
    loadMoreStart file s =
      ({ s with
          loading := true, fileSize := some n, metadata := some file.md,
          columns := if s.columns = [] then (allColumns file.md).map (·.1)
                     else s.columns }, [],
        some ⟨o, if s.pageSize ≠ 0 then some (o + s.pageSize) else none,
          Except.ok (windowRows file.rows o
            (if s.pageSize ≠ 0 then some (o + s.pageSize) else none))⟩) := by
  unfold loadMoreStart discover discoverCore parquetReadModel
  rw [hoff]
  simp [hfs, hhead, hcl, hmok, hread]

/-- Characterization of the synchronous `loadMore` prefix on a state that
already knows the file size and metadata: no discovery, and the pending
load requests `[offset, offset + pageSize)` of the decoded rows. -/
theorem loadMoreStart_ready (file : RemoteFile) (s : AppState) (o m : Nat)
    (md : Metadata) (hoff : s.offset = some o) (hfs : s.fileSize = some m)
    (hmd : s.metadata = some md) (hread : file.readOk = true) :
    loadMoreStart file s =
      ({ s with loading := true }, [],
        some ⟨o, if s.pageSize ≠ 0 then some (o + s.pageSize) else none,
          Except.ok (windowRows file.rows o
            (if s.pageSize ≠ 0 then some (o + s.pageSize) else none))⟩) := by
  unfold loadMoreStart parquetReadModel
  rw [hoff]
  simp [hfs, hmd, hread]

/-- The pagination fields of a `loadMore` whose pending read succeeded. -/
theorem loadMore_ok_fields (file : RemoteFile) (s s' : AppState) (errs : List String)
    (o : Nat) (rowEnd : Option Nat) (w : List Row)
    (hstart : loadMoreStart file s = (s', errs, some ⟨o, rowEnd, Except.ok w⟩)) :
    (loadMore file s).1.offset =
      (if s'.pageSize = 0 ∨ w.length < s'.pageSize then none
       else some (s'.offset.getD 0 + w.length)) ∧
    (loadMore file s).1.pageSize = s'.pageSize ∧
    (loadMore file s).1.fileSize = s'.fileSize ∧
    (loadMore file s).1.metadata = s'.metadata := by
  unfold loadMore
  rw [hstart]
  dsimp only
  exact ⟨loadMoreFinish_ok_offset s' _ w rfl, loadMoreFinish_ok_pageSize s' _ w rfl,
    loadMoreFinish_ok_fileSize s' _ w rfl, loadMoreFinish_ok_metadata s' _ w rfl⟩

/-- Witness for C6 (amended) at a state holding features with ids 0 and 1,
selecting the absent id 5. -/
theorem C6_missing_feature_errors_witness :
    getFeatureById sSel.source (some 5) = none ∧
    selectOnMap sSel 5 = Except.error nullFeatureMsg :=
  ⟨rfl, C6_missing_feature_errors sSel 5 rfl⟩

/-- C1: on a 250-row file, starting from the fresh state with page size
100, three successive `loadMore` invocations request the row windows
`[0, 100)`, `[100, 200)`, `[200, 300)`; the third delivers only 50 rows, so
completion is signalled (`offset = none`), and a fourth `loadMore` is a
no-op. -/
theorem C1_pagination_three_pages (file : RemoteFile) (n : Nat)
    (hrows : file.rows.length = 250) (_hnum : file.md.num_rows = 250)
    (hhead : file.headOk = true) (hcl : file.contentLength = some n)
    (hmok : file.metadataOk = true) (hread : file.readOk = true) :
    ((loadMoreStart file s100).2.2).map (fun p => (p.rowStart, p.rowEnd)) =
      some (0, some 100) ∧
    (loadMore file s100).1.offset = some 100 ∧
    ((loadMoreStart file (loadMore file s100).1).2.2).map
      (fun p => (p.rowStart, p.rowEnd)) = some (100, some 200) ∧
    (loadMore file (loadMore file s100).1).1.offset = some 200 ∧
    (∃ w, (loadMoreStart file (loadMore file (loadMore file s100).1).1).2.2 =
      some ⟨200, some 300, Except.ok w⟩ ∧ w.length = 50) ∧
    (loadMore file (loadMore file (loadMore file s100).1).1).1.offset = none ∧
    loadMore file (loadMore file (loadMore file (loadMore file s100).1).1).1 =
      ((loadMore file (loadMore file (loadMore file s100).1).1).1, []) := by
  have hw1 : (windowRows file.rows 0 (some 100)).length = 100 := by
    simp [windowRows, hrows]
  have hw2 : (windowRows file.rows 100 (some 200)).length = 100 := by
    simp [windowRows, hrows]
  have hw3 : (windowRows file.rows 200 (some 300)).length = 50 := by
    simp [windowRows, hrows]
  have e1 : loadMoreStart file s100 =
      ({ s100 with
          loading := true, fileSize := some n, metadata := some file.md,
          columns := (allColumns file.md).map (·.1) }, [],
        some ⟨0, some 100, Except.ok (windowRows file.rows 0 (some 100))⟩) :=
    loadMoreStart_fresh file s100 0 n rfl rfl hcl hhead hmok hread
  have e1' := loadMore_ok_fields file s100 _ _ _ _ _ e1
  have hoff1 : (loadMore file s100).1.offset = some 100 := by
    rw [e1'.1, hw1]
    simp [s100, initialState]
  have hps1 : (loadMore file s100).1.pageSize = 100 := by
    rw [e1'.2.1]
    rfl
  have hfs1 : (loadMore file s100).1.fileSize = some n := by
    rw [e1'.2.2.1]
  have hmd1 : (loadMore file s100).1.metadata = some file.md := by
    rw [e1'.2.2.2]
  have e2 : loadMoreStart file (loadMore file s100).1 =
      ({ (loadMore file s100).1 with loading := true, pageSize := 100 }, [],
        some ⟨100, some 200, Except.ok (windowRows file.rows 100 (some 200))⟩) := by
    have e := loadMoreStart_ready file (loadMore file s100).1 100 n file.md
      hoff1 hfs1 hmd1 hread
    rw [hps1] at e
    norm_num at e
    exact e
  have e2' := loadMore_ok_fields file (loadMore file s100).1 _ _ _ _ _ e2
  have hoff2 : (loadMore file (loadMore file s100).1).1.offset = some 200 := by
    rw [e2'.1, hw2]
    simp [hoff1]
  have hps2 : (loadMore file (loadMore file s100).1).1.pageSize = 100 := by
    rw [e2'.2.1]
  have hfs2 : (loadMore file (loadMore file s100).1).1.fileSize = some n := by
    rw [e2'.2.2.1]
    exact hfs1
  have hmd2 : (loadMore file (loadMore file s100).1).1.metadata = some file.md := by
    rw [e2'.2.2.2]
    exact hmd1
  have e3 : loadMoreStart file (loadMore file (loadMore file s100).1).1 =
      ({ (loadMore file (loadMore file s100).1).1 with
          loading := true, pageSize := 100 }, [],
        some ⟨200, some 300, Except.ok (windowRows file.rows 200 (some 300))⟩) := by
    have e := loadMoreStart_ready file (loadMore file (loadMore file s100).1).1 200 n
      file.md hoff2 hfs2 hmd2 hread
    rw [hps2] at e
    norm_num at e
    exact e
  have e3' := loadMore_ok_fields file (loadMore file (loadMore file s100).1).1 _ _ _ _ _ e3
  have hoff3 : (loadMore file (loadMore file (loadMore file s100).1).1).1.offset = none := by
    rw [e3'.1, hw3]
    simp
  refine ⟨?_, hoff1, ?_, hoff2, ?_, hoff3, loadMore_of_complete file _ hoff3⟩
  · rw [e1]
    rfl
  · rw [e2]
    rfl
  · exact ⟨windowRows file.rows 200 (some 300), by rw [e3], hw3⟩

/-- Witness for C1 on the concrete 250-row file. -/
theorem C1_pagination_three_pages_witness :
    (file250.rows.length = 250 ∧ file250.md.num_rows = 250 ∧
      file250.headOk = true ∧ file250.contentLength = some 9999 ∧
      file250.metadataOk = true ∧ file250.readOk = true) ∧
    (((loadMoreStart file250 s100).2.2).map (fun p => (p.rowStart, p.rowEnd)) =
      some (0, some 100) ∧
    (loadMore file250 s100).1.offset = some 100 ∧
    ((loadMoreStart file250 (loadMore file250 s100).1).2.2).map
      (fun p => (p.rowStart, p.rowEnd)) = some (100, some 200) ∧
    (loadMore file250 (loadMore file250 s100).1).1.offset = some 200 ∧
    (∃ w, (loadMoreStart file250 (loadMore file250 (loadMore file250 s100).1).1).2.2 =
      some ⟨200, some 300, Except.ok w⟩ ∧ w.length = 50) ∧
    (loadMore file250 (loadMore file250 (loadMore file250 s100).1).1).1.offset = none ∧
    loadMore file250 (loadMore file250 (loadMore file250 (loadMore file250 s100).1).1).1 =
      ((loadMore file250 (loadMore file250 (loadMore file250 s100).1).1).1, [])) :=
  ⟨⟨by simp [file250], rfl, rfl, rfl, rfl, rfl⟩,
    C1_pagination_three_pages file250 9999 (by simp [file250]) rfl rfl rfl rfl rfl⟩

/-- The feature-id invariant splits over an append: the appended rows are
checked at positions shifted by the prefix length. -/
theorem rowsIdOkFrom_append (n : Nat) (a b : List Row) :
    rowsIdOkFrom n (a ++ b) = (rowsIdOkFrom n a && rowsIdOkFrom (n + a.length) b) := by
  induction a generalizing n with
  | nil => simp [rowsIdOkFrom]
  | cons r rest ih =>
    simp [rowsIdOkFrom, ih, Bool.and_assoc, Nat.add_comm, Nat.add_assoc,
      Nat.add_left_comm]

/-- A row of raw cells satisfies the id constraint at any position. -/
theorem rowIdOk_of_raw (i : Nat) (r : Row) (h : r.all cellRaw = true) :
    rowIdOk i r = true := by
  unfold rowIdOk
  rw [List.all_eq_true] at h ⊢
  intro c hc
  have hcr := h c hc
  cases c with
  | raw _ _ => rfl
  | feat _ _ => simp [cellRaw] at hcr

/-- Raw pages satisfy the id constraint at any starting position. -/
theorem rowsIdOkFrom_of_raw (n : Nat) (rows : List Row)
    (h : rows.all (fun r => r.all cellRaw) = true) :
    rowsIdOkFrom n rows = true := by
  induction rows generalizing n with
  | nil => rfl
  | cons r rest ih =>
    rw [List.all_cons, Bool.and_eq_true] at h
    unfold rowsIdOkFrom
    rw [Bool.and_eq_true]
    exact ⟨rowIdOk_of_raw n r h.1, ih (n + 1) h.2⟩

/-- Appending a raw page preserves the feature-id invariant. -/
theorem FeatureIdsOk_append_raw (data new : List Row) (h : FeatureIdsOk data)
    (hnew : AllRawRows new) : FeatureIdsOk (data ++ new) := by
  unfold FeatureIdsOk at h ⊢
  rw [rowsIdOkFrom_append, Bool.and_eq_true, Nat.zero_add]
  exact ⟨h, rowsIdOkFrom_of_raw data.length new hnew⟩

/-- Every window of an all-raw file is all-raw. -/
theorem allRaw_window (rows : List Row) (a : Nat) (b : Option Nat)
    (h : AllRawRows rows) : AllRawRows (windowRows rows a b) := by
  unfold AllRawRows at h ⊢
  rw [List.all_eq_true] at h ⊢
  intro r hr
  apply h
  unfold windowRows at hr
  rcases b with _ | e
  · exact List.mem_of_mem_drop hr
  · exact List.mem_of_mem_drop (List.mem_of_mem_take hr)

/-- Setting the converted feature of position `i` into row `i` preserves
its id constraint. -/
theorem rowIdOk_set_feat (i idx g : Nat) (r : Row) (h : rowIdOk i r = true) :
    rowIdOk i (r.set idx (Cell.feat i g)) = true := by
  unfold rowIdOk at h ⊢
  rw [List.all_eq_true] at h ⊢
  intro c hc
  rcases List.mem_or_eq_of_mem_set hc with hc | rfl
  · exact h c hc
  · simp [cellIdOk]

/-- A successful `convertRow` of row `i` keeps the row's id constraint. -/
theorem convertRow_ok_idOk (i idx : Nat) (r r' : Row)
    (h : convertRow i idx r = .ok r') (hr : rowIdOk i r = true) :
    rowIdOk i r' = true := by
  unfold convertRow at h
  rcases hg : r.get? idx with _ | c
  · rw [hg] at h
    cases h
  · rw [hg] at h
    dsimp only at h
    rcases hf : readFeatureWKB c with _ | geo
    · rw [hf] at h
      cases h
    · rw [hf] at h
      injection h with h
      subst h
      exact rowIdOk_set_feat i idx geo r hr

/-- The inner `parseWKB` loop preserves the shifted id invariant, wherever
it stops. -/
theorem convertRows_idOk (idx : Nat) (i : Nat) (rows : List Row)
    (h : rowsIdOkFrom i rows = true) :
    rowsIdOkFrom i (convertRows idx i rows).1 = true := by
  induction rows generalizing i with
  | nil => exact h
  | cons r rest ih =>
    have h' := h
    unfold rowsIdOkFrom at h'
    rw [Bool.and_eq_true] at h'
    rcases h' with ⟨h1, h2⟩
    unfold convertRows
    rcases hc : convertRow i idx r with e | r'
    · exact h
    · show rowsIdOkFrom i (r' :: (convertRows idx (i + 1) rest).1) = true
      unfold rowsIdOkFrom
      rw [Bool.and_eq_true]
      exact ⟨convertRow_ok_idOk i idx r r' hc h1, ih (i + 1) h2⟩

/-- One geometry column's pass preserves the id invariant. -/
theorem convertColumn_idOk (md : Metadata) (name : String) (data : List Row)
    (h : rowsIdOkFrom 0 data = true) :
    rowsIdOkFrom 0 (convertColumn md name data).1 = true := by
  unfold convertColumn
  rcases hl : (allColumns md).lookup name with _ | idx
  · dsimp only
    split <;> exact h
  · exact convertRows_idOk idx 0 data h

/-- The `parseWKB` column loop preserves the id invariant. -/
theorem convertColumns_idOk (md : Metadata) (cols : List String) :
    ∀ data : List Row, rowsIdOkFrom 0 data = true →
      rowsIdOkFrom 0 (convertColumns md cols data).1 = true := by
  induction cols with
  | nil => exact fun data h => h
  | cons c cs ih =>
    intro data h
    show rowsIdOkFrom 0
        (match (convertColumn md c data).2 with
          | some e => ((convertColumn md c data).1, some e)
          | none => convertColumns md cs (convertColumn md c data).1).1 = true
    rcases hp : (convertColumn md c data).2 with _ | e
    · exact ih _ (convertColumn_idOk md c data h)
    · exact convertColumn_idOk md c data h

/-- `parseWKB` preserves the id invariant on the dataset. -/
theorem parseWKBcore_idOk (mdOpt : Option Metadata) (data : List Row)
    (h : FeatureIdsOk data) : FeatureIdsOk (parseWKBcore mdOpt data).1 := by
  unfold parseWKBcore
  rcases mdOpt with _ | md
  · exact h
  · dsimp only
    rcases hg : md.geo with _ | geo
    · exact h
    · exact convertColumns_idOk md geo.columns data h

/-- The post-`onComplete` tail of `loadMore` preserves the id invariant. -/
theorem loadMoreAfterRows_idOk (s : AppState) (h : FeatureIdsOk s.data) :
    FeatureIdsOk (loadMoreAfterRows s).1.data := by
  unfold loadMoreAfterRows
  rcases h1 : (parseWKBcore s.metadata s.data).2 with _ | e
  · rcases h2 : (addToMapCore s.metadata s.source (parseWKBcore s.metadata s.data).1).2
      with _ | e
    · exact parseWKBcore_idOk s.metadata s.data h
    · exact parseWKBcore_idOk s.metadata s.data h
  · exact parseWKBcore_idOk s.metadata s.data h

/-- A successful `parquetRead` delivers exactly the requested window of the
file's decoded rows. -/
theorem parquetReadModel_ok (file : RemoteFile) (fs : Option Nat)
    (md : Option Metadata) (a : Nat) (b : Option Nat) (rows : List Row)
    (h : parquetReadModel file fs md a b = .ok rows) :
    rows = windowRows file.rows a b := by
  unfold parquetReadModel at h
  rcases md with _ | md
  · rcases fs with _ | n
    · cases h
    · by_cases hro : (file.metadataOk && file.readOk) = true
      · rw [if_pos hro] at h
        injection h with h
        exact h.symm
      · rw [if_neg hro] at h
        cases h
  · by_cases hro : file.readOk = true
    · rw [if_pos hro] at h
      injection h with h
      exact h.symm
    · rw [if_neg hro] at h
      cases h

/-- The pending load created by `loadMoreStart`, when it succeeds, carries
the window of the file's rows it requested. -/
theorem loadMoreStart_result_window (file : RemoteFile) (s : AppState) (p : Pending)
    (hp : (loadMoreStart file s).2.2 = some p) (rows : List Row)
    (hr : p.result = .ok rows) : rows = windowRows file.rows p.rowStart p.rowEnd := by
  unfold loadMoreStart at hp
  rcases ho : s.offset with _ | o
  · rw [ho] at hp
    cases hp
  · rw [ho] at hp
    dsimp only at hp
    injection hp with hp
    subst hp
    exact parquetReadModel_ok file _ _ _ _ rows hr

/-- Positions shift through the invariant: the row found at index `i`
satisfies the id constraint at `n + i`. -/
theorem rowsIdOkFrom_get (n : Nat) (data : List Row)
    (h : rowsIdOkFrom n data = true) :
    ∀ i ri, data.get? i = some ri → rowIdOk (n + i) ri = true := by
  induction data generalizing n with
  | nil => intro i ri hri; cases hri
  | cons r rest ih =>
    have h' := h
    unfold rowsIdOkFrom at h'
    rw [Bool.and_eq_true] at h'
    rcases h' with ⟨h1, h2⟩
    intro i ri hri
    cases i with
    | zero =>
      injection hri with hri
      subst hri
      simpa using h1
    | succ i =>
      have := ih (n + 1) h2 i ri hri
      simpa [Nat.add_assoc, Nat.add_comm, Nat.add_left_comm] using this

/-- In an invariant-satisfying dataset, any materialized feature's id is
its row position. -/
theorem FeatureIdsOk_get (data : List Row) (h : FeatureIdsOk data) :
    ∀ i ri f g, data.get? i = some ri → Cell.feat f g ∈ ri → f = i := by
  intro i ri f g hri hmem
  have hrow := rowsIdOkFrom_get 0 data h i ri hri
  unfold rowIdOk at hrow
  rw [List.all_eq_true] at hrow
  have := hrow _ hmem
  simpa [cellIdOk] using this

/-- C4: on any dataset satisfying the row-position/feature-id invariant
(the fresh empty dataset does), a full `loadMore` round — page append,
`parseWKB` materialization (which assigns `feature.setId(i)` per row
position, possibly stopping early on an error), map insertion — preserves
it: every materialized feature's id equals its row position, so the
row-to-feature mapping is collision-free and stays intact when further
pages are appended. -/
theorem C4_feature_id_invariant (file : RemoteFile) (s : AppState)
    (hraw : AllRawRows file.rows) (hinv : FeatureIdsOk s.data) :
    FeatureIdsOk (parseWKB s).1.data ∧
    FeatureIdsOk (loadMore file s).1.data ∧
    (∀ i ri f g, (loadMore file s).1.data.get? i = some ri →
      Cell.feat f g ∈ ri → f = i) ∧
    (∀ i j ri rj f g f' g', (loadMore file s).1.data.get? i = some ri →
      (loadMore file s).1.data.get? j = some rj →
      Cell.feat f g ∈ ri → Cell.feat f' g' ∈ rj → f = f' → i = j) := by
  have hparse : FeatureIdsOk (parseWKB s).1.data :=
    parseWKBcore_idOk s.metadata s.data hinv
  have hload : FeatureIdsOk (loadMore file s).1.data := by
    rcases hp : (loadMoreStart file s).2.2 with _ | p
    · unfold loadMore
      rw [hp]
      dsimp only
      rw [loadMoreStart_data file s]
      exact hinv
    · unfold loadMore
      rw [hp]
      dsimp only
      rcases hr : p.result with e | rows
      · rw [loadMoreFinish_error _ p e hr]
        show FeatureIdsOk (loadMoreStart file s).1.data
        rw [loadMoreStart_data file s]
        exact hinv
      · have hw := loadMoreStart_result_window file s p hp rows hr
        unfold loadMoreFinish
        rw [hr]
        apply loadMoreAfterRows_idOk
        show FeatureIdsOk ((loadMoreStart file s).1.data ++ rows)
        rw [loadMoreStart_data file s]
        subst hw
        exact FeatureIdsOk_append_raw s.data _ hinv (allRaw_window file.rows _ _ hraw)
  refine ⟨hparse, hload, FeatureIdsOk_get _ hload, ?_⟩
  intro i j ri rj f g f' g' hri hrj hm hm' hff
  have h1 := FeatureIdsOk_get _ hload i ri f g hri hm
  have h2 := FeatureIdsOk_get _ hload j rj f' g' hrj hm'
  rw [← h1, ← h2, hff]

/-- Witness for C4 on the concrete 2-row GeoParquet file, loading one page
into the fresh state. -/
theorem C4_feature_id_invariant_witness :
    (AllRawRows file2.rows ∧ FeatureIdsOk initialState.data) ∧
    (FeatureIdsOk (parseWKB initialState).1.data ∧
      FeatureIdsOk (loadMore file2 initialState).1.data ∧
      (∀ i ri f g, (loadMore file2 initialState).1.data.get? i = some ri →
        Cell.feat f g ∈ ri → f = i) ∧
      (∀ i j ri rj f g f' g',
        (loadMore file2 initialState).1.data.get? i = some ri →
        (loadMore file2 initialState).1.data.get? j = some rj →
        Cell.feat f g ∈ ri → Cell.feat f' g' ∈ rj → f = f' → i = j)) :=
  ⟨⟨rfl, rfl⟩,
    C4_feature_id_invariant file2 initialState rfl rfl⟩

/-- A feature id present in the source's id column can be found. -/
theorem find?_fid_exists (l : List MapFeature) (i : Nat) (hi : i ∈ l.map (·.fid)) :
    ∃ f, l.find? (fun g => g.fid == i) = some f ∧ f.fid = i := by
  have hex : ∃ x, x ∈ l ∧ ((fun g => g.fid == i) x) := by
    rcases List.mem_map.mp hi with ⟨f, hf, rfl⟩
    exact ⟨f, hf, by simp⟩
  have hs := List.find?_isSome.mpr hex
  rcases ho : l.find? (fun g => g.fid == i) with _ | f
  · rw [ho] at hs
    simp at hs
  · refine ⟨f, ho, ?_⟩
    simpa using List.find?_some ho

/-- `selectOnMap i` from a state with no previous selection and a feature
with id `i` present: records the selection and highlights feature `i`. -/
theorem selectOnMap_found_none (s : AppState) (i : Nat) (f : MapFeature)
    (hsel : s.selected = none)
    (hf : s.source.find? (fun g => g.fid == i) = some f) :
    selectOnMap s i =
      .ok { s with
              selected := some i,
              source := s.source.map (restyle i FeatStyle.selectStyle) } := by
  unfold selectOnMap select unselectFeature
  rw [hsel]
  show selectFeature { s with selected := some i } = _
  unfold selectFeature
  rw [setFeatureStyle_found_id { s with selected := some i } i FeatStyle.selectStyle f hf]
  rfl

/-- `selectOnMap i` from a state whose previous selection `k` has a
feature: reverts feature `k` to the default style, records `i`, highlights
feature `i`. -/
theorem selectOnMap_found_some (s : AppState) (i k : Nat) (fk fi : MapFeature)
    (hsel : s.selected = some k)
    (hfk : s.source.find? (fun g => g.fid == k) = some fk)
    (hfi : (s.source.map (restyle k FeatStyle.defaultStyle)).find?
      (fun g => g.fid == i) = some fi) :
    selectOnMap s i =
      .ok { s with
              selected := some i,
              source := (s.source.map (restyle k FeatStyle.defaultStyle)).map
                (restyle i FeatStyle.selectStyle) } := by
  unfold selectOnMap select unselectFeature
  rw [hsel]
  rw [setFeatureStyle_found_id s k FeatStyle.defaultStyle fk hfk]
  show selectFeature
      { s with
        selected := some i,
        source := s.source.map (restyle k FeatStyle.defaultStyle) } = _
  unfold selectFeature
  rw [setFeatureStyle_found_id _ i FeatStyle.selectStyle fi hfi]
  rfl

/-- The pointwise effect on an unstyled feature of the three restylings
performed by `selectOnMap i` followed by `selectOnMap j`. -/
theorem restyle_chain (g : MapFeature) (i j : Nat) (hij : i ≠ j)
    (hg : g.style = FeatStyle.layerDefault) :
    restyle j FeatStyle.selectStyle
        (restyle i FeatStyle.defaultStyle (restyle i FeatStyle.selectStyle g)) =
      ⟨g.fid, g.geom,
        if g.fid = j then FeatStyle.selectStyle
        else if g.fid = i then FeatStyle.defaultStyle
        else FeatStyle.layerDefault⟩ := by
  unfold restyle
  by_cases hgi : g.fid = i
  · have hgj : ¬ g.fid = j := by
      rw [hgi]
      exact hij
    simp [hgi, hgj, hij]
  · by_cases hgj : g.fid = j
    · simp [hgi, hgj, Ne.symm hij]
    · simp [hgi, hgj]
      rw [← hg]

/-- C7: selecting row `i` on the map and then row `j ≠ i` (both features
present, ids collision-free, nothing styled or selected initially) leaves
exactly one feature carrying the highlighted style — the one with id `j` —
with feature `i` reverted to the explicit default style; the recorded
selection is a single optional index: `i` after the first call, `j` after
the second. -/
theorem C7_select_i_then_j (s : AppState) (i j : Nat)
    (hnd : (s.source.map (·.fid)).Nodup)
    (hi : i ∈ s.source.map (·.fid)) (hj : j ∈ s.source.map (·.fid))
    (hij : i ≠ j) (hsty : ∀ f ∈ s.source, f.style = FeatStyle.layerDefault)
    (hsel : s.selected = none) :
    ∃ s2,
      (selectOnMap s i).bind (fun s1 => selectOnMap s1 j) = .ok s2 ∧
      (selectOnMap s i).map (fun s1 => s1.selected) = .ok (some i) ∧
      s2.selected = some j ∧
      (∀ f ∈ s2.source, (f.style = FeatStyle.selectStyle ↔ f.fid = j)) ∧
      (∀ f ∈ s2.source, f.fid = i → f.style = FeatStyle.defaultStyle) ∧
      s2.source.countP (fun f => f.style == FeatStyle.selectStyle) = 1 := by
  obtain ⟨fi, hfi, _⟩ := find?_fid_exists s.source i hi
  have e1 := selectOnMap_found_none s i fi hsel hfi
  obtain ⟨f2, hf2, _⟩ := find?_fid_exists (s.source.map (restyle i FeatStyle.selectStyle)) i
    (by rw [map_fid_restyle]; exact hi)
  obtain ⟨f3, hf3, _⟩ := find?_fid_exists
    ((s.source.map (restyle i FeatStyle.selectStyle)).map (restyle i FeatStyle.defaultStyle)) j
    (by rw [map_fid_restyle, map_fid_restyle]; exact hj)
  have e2 := selectOnMap_found_some
    { s with
        selected := some i,
        source := s.source.map (restyle i FeatStyle.selectStyle) }
    j i f2 f3 rfl hf2 hf3
  refine ⟨{ s with
      selected := some j,
      source := ((s.source.map (restyle i FeatStyle.selectStyle)).map
        (restyle i FeatStyle.defaultStyle)).map (restyle j FeatStyle.selectStyle) },
    ?_, ?_, rfl, ?_, ?_, ?_⟩
  · rw [e1]
    show selectOnMap
        { s with
          selected := some i,
          source := s.source.map (restyle i FeatStyle.selectStyle) } j = _
    exact e2
  · rw [e1]
    rfl
  · intro f hf
    rw [List.map_map, List.map_map] at hf
    rcases List.mem_map.mp hf with ⟨g, hg, rfl⟩
    simp only [Function.comp]
    rw [restyle_chain g i j hij (hsty g hg)]
    by_cases hgj : g.fid = j <;> by_cases hgi : g.fid = i <;> simp [hgj, hgi]
  · intro f hf
    rw [List.map_map, List.map_map] at hf
    rcases List.mem_map.mp hf with ⟨g, hg, rfl⟩
    simp only [Function.comp]
    rw [restyle_chain g i j hij (hsty g hg)]
    intro hgi
    have hgi' : g.fid = i := hgi
    have hgj : ¬ g.fid = j := by
      rw [hgi']
      exact hij
    simp [hgi', hgj, hij]
  · rw [List.map_map, List.map_map, List.countP_map]
    rw [List.countP_congr (q := fun g => g.fid == j) ?_]
    · have hcount := List.count_eq_one_of_mem hnd hj
      rw [List.count_eq_countP, List.countP_map] at hcount
      exact hcount
    · intro g hg
      simp only [Function.comp]
      rw [restyle_chain g i j hij (hsty g hg)]
      by_cases hgj : g.fid = j <;> by_cases hgi : g.fid = i <;> simp [hgj, hgi]

/-- Witness for C7 on a source holding unstyled features 0 and 1. -/
theorem C7_select_i_then_j_witness :
    ((sSel.source.map (·.fid)).Nodup ∧ 0 ∈ sSel.source.map (·.fid) ∧
      1 ∈ sSel.source.map (·.fid) ∧ (0 : Nat) ≠ 1 ∧
      (∀ f ∈ sSel.source, f.style = FeatStyle.layerDefault) ∧
      sSel.selected = none) ∧
    (∃ s2,
      (selectOnMap sSel 0).bind (fun s1 => selectOnMap s1 1) = .ok s2 ∧
      (selectOnMap sSel 0).map (fun s1 => s1.selected) = .ok (some 0) ∧
      s2.selected = some 1 ∧
      (∀ f ∈ s2.source, (f.style = FeatStyle.selectStyle ↔ f.fid = 1)) ∧
      (∀ f ∈ s2.source, f.fid = 0 → f.style = FeatStyle.defaultStyle) ∧
      s2.source.countP (fun f => f.style == FeatStyle.selectStyle) = 1) :=
  ⟨⟨by decide, by decide, by decide, by decide, by decide, rfl⟩,
    C7_select_i_then_j sSel 0 1 (by decide) (by decide) (by decide) (by decide)
      (by decide) rfl⟩

/-- The keys of the name/position pairs are the column names themselves. -/
theorem indexPairs_map_fst (n : Nat) (l : List String) :
    (indexPairs n l).map (·.1) = l := by
  induction l generalizing n with
  | nil => rfl
  | cons a t ih => simp [indexPairs, ih]

/-- Every pair produced from start position `n` carries a position `≥ n`. -/
theorem mem_indexPairs_le (n : Nat) (l : List String) (p : String × Nat)
    (h : p ∈ indexPairs n l) : n ≤ p.2 := by
  induction l generalizing n with
  | nil => cases h
  | cons a t ih =>
    rcases List.mem_cons.mp h with h | h
    · subst h
      exact Nat.le_refl n
    · exact Nat.le_of_succ_le (ih (n + 1) h)

/-- The name/position pairs are sorted ascending by position. -/
theorem indexPairs_sorted (n : Nat) (l : List String) :
    List.Sorted (fun a b : String × Nat => a.2 ≤ b.2) (indexPairs n l) := by
  induction l generalizing n with
  | nil => exact List.sorted_nil
  | cons a t ih =>
    refine List.sorted_cons.mpr ⟨?_, ih (n + 1)⟩
    intro b hb
    exact Nat.le_of_succ_le (mem_indexPairs_le (n + 1) t b hb)

/-- Building a JavaScript object from entries with pairwise-distinct keys
(all also absent from the accumulator) just appends the entries. -/
theorem foldl_upsert_of_nodup (xs : List (String × Nat)) :
    ∀ acc : List (String × Nat),
      (∀ p ∈ xs, ∀ q ∈ acc, p.1 ≠ q.1) → (xs.map (·.1)).Nodup →
      xs.foldl (fun m p => upsert m p.1 p.2) acc = acc ++ xs := by
  induction xs with
  | nil =>
    intro acc _ _
    simp
  | cons p t ih =>
    intro acc hdisj hx
    have hup : upsert acc p.1 p.2 = acc ++ [(p.1, p.2)] := by
      unfold upsert
      rw [if_neg]
      intro hany
      rcases List.any_eq_true.mp hany with ⟨q, hq, hbeq⟩
      have hq1 : q.1 = p.1 := by simpa using hbeq
      exact hdisj p (List.mem_cons_self p t) q hq hq1.symm
    have hnotin : p.1 ∉ t.map (·.1) := by
      rw [List.map_cons] at hx
      exact (List.nodup_cons.mp hx).1
    rw [List.foldl_cons, hup, ih (acc ++ [(p.1, p.2)]) ?_ ?_]
    · simp
    · intro q hq r hr
      rcases List.mem_append.mp hr with hr | hr
      · exact hdisj q (List.mem_cons_of_mem p hq) r hr
      · have hrp : r = (p.1, p.2) := by simpa using hr
        subst hrp
        intro hqp
        exact hnotin (hqp ▸ List.mem_map_of_mem (·.1) hq)
    · rw [List.map_cons] at hx
      exact (List.nodup_cons.mp hx).2

/-- With pairwise-distinct column names, the column object holds exactly
the name/position pairs in schema order. -/
theorem allColumns_of_nodup (md : Metadata) (h : md.columnNames.Nodup) :
    allColumns md = indexPairs 0 md.columnNames := by
  unfold allColumns
  rw [foldl_upsert_of_nodup (indexPairs 0 md.columnNames) [] (by simp)
    (by rw [indexPairs_map_fst]; exact h)]
  rfl

/-- With pairwise-distinct column names, sorting by position is the
identity: `sortedColumns` is the schema order. -/
theorem sortedColumns_of_nodup (md : Metadata) (h : md.columnNames.Nodup) :
    sortedColumns md = (indexPairs 0 md.columnNames).map (fun x => (x.2, x.1)) := by
  unfold sortedColumns
  rw [allColumns_of_nodup md h,
    List.Sorted.insertionSort_eq (indexPairs_sorted 0 md.columnNames)]

/-- C10: for a loaded file with geo metadata (and pairwise-distinct schema
column names), the table shows exactly the schema columns that are not
named in the geo metadata's `columns` mapping, in ascending schema position
order; no geometry column is ever shown. -/
theorem C10_shown_columns (md : Metadata) (geo : GeoMeta)
    (h : md.columnNames.Nodup) :
    shownColumns md geo =
      ((indexPairs 0 md.columnNames).filter
        (fun p => !(geo.columns.contains p.1))).map (fun p => (p.2, p.1)) ∧
    ∀ q ∈ shownColumns md geo, ¬ q.2 ∈ geo.columns := by
  have hs := sortedColumns_of_nodup md h
  constructor
  · unfold shownColumns
    rw [hs, List.filter_map]
    rfl
  · intro q hq
    unfold shownColumns at hq
    have := List.of_mem_filter hq
    simpa using this

/-- Witness for C10 on the concrete GeoParquet metadata: only the `name`
column (schema position 1) is shown; the `geometry` column is not. -/
theorem C10_shown_columns_witness :
    mdGeo.columnNames.Nodup ∧
    (shownColumns mdGeo ⟨["geometry"], "geometry"⟩ =
      ((indexPairs 0 mdGeo.columnNames).filter
        (fun p => !((["geometry"] : List String).contains p.1))).map
          (fun p => (p.2, p.1)) ∧
    ∀ q ∈ shownColumns mdGeo ⟨["geometry"], "geometry"⟩,
      ¬ q.2 ∈ (["geometry"] : List String)) :=
  ⟨by decide, C10_shown_columns mdGeo ⟨["geometry"], "geometry"⟩ (by decide)⟩

/-- C2: the claim is the evident intent (spec section 8 states it as a
testable property), but the code re-runs `parseWKB` over the whole loaded
dataset after every page; on every page after the first it feeds the
already-converted feature object of row 0 back to the WKB reader, which
fails. Consequently repeated `loadMore` materializes geometry only for the
first page (and surfaces an error alert on each later page), while
`loadAll` materializes all rows, so the final datasets differ. Concretely,
on the 2-row geo file with page size 1, `loadAll` converts both geometry
cells but paged loading leaves row 1's geometry raw. -/
theorem C2_loadAll_vs_paged_loadMore :
    (loadAll file2 s0pg1).1.data =
      [[Cell.feat 0 10, Cell.raw 0 true], [Cell.feat 1 20, Cell.raw 1 true]] ∧
    (loadMoreRepeat file2 5 s0pg1).data =
      [[Cell.feat 0 10, Cell.raw 0 true], [Cell.raw 20 true, Cell.raw 1 true]] ∧
    (loadMoreRepeat file2 5 s0pg1).offset = none ∧
    (loadMore file2 (loadMore file2 s0pg1).1).2 = [wkbErrMsg] ∧
    (loadAll file2 s0pg1).1.data ≠ (loadMoreRepeat file2 5 s0pg1).data :=
  ⟨rfl, rfl, rfl, rfl, by decide⟩

end GeoParquetViewer
